import Mathlib

/-
  Verification development for the total-compensation projection engine
  (src/src/services/compensationCalculator.ts and its collaborators
  src/unnamed/part_005 ExchangeRateService, src/unnamed/part_006
  stockPriceService.getHistoricalPrice).

  Numbers are modelled as rationals (the TS code works on JS numbers and
  none of the verified properties depends on binary floating point).
  The two asynchronous collaborators are modelled as explicit inputs:
  the historical-price lookup as a function argument returning the price
  (0 meaning "no data", exactly the contract of getHistoricalPrice, which
  catches every failure and returns 0), and the exchange-rate service as a
  record of its three data sources (fresh in-memory cache, network fetch,
  localStorage), from which getExchangeRate either produces a rate or
  throws, modelled with Except.
  The clock (new Date()) is modelled as an explicit Now argument.
-/

namespace CompCalc

/-- The wall clock as read by the TS code: current calendar year and
current month (1 to 12), i.e. getFullYear() and getMonth() + 1. -/
structure Now where
  year : Int
  month : Int
  deriving DecidableEq, Repr

/-- A JS Date as the code observes it: getYear, getMonth (stored here
1-based, i.e. getMonth() + 1) and getDate. -/
structure JSDate where
  year : Int
  month : Int
  day : Int
  deriving DecidableEq, Repr

/-- Gregorian leap-year rule, as implemented by the JS Date object. -/
def isLeapYear (y : Int) : Bool :=
  (y % 4 == 0 && y % 100 != 0) || y % 400 == 0

/-- Number of days of month m (1-based) of year y, per the JS Date object. -/
def daysInMonth (y m : Int) : Int :=
  if m = 2 then (if isLeapYear y then 29 else 28)
  else if m = 4 ∨ m = 6 ∨ m = 9 ∨ m = 11 then 30
  else 31

/-- Day-overflow normalization of the JS Date constructor: a day count
exceeding the length of the month carries into the following month
(e.g. new Date(2026, 1, 29) is March 1, 2026). Only days ≥ 1 occur here:
every call site passes getDate() of an existing valid date. -/
def normDayCarry (y m : Int) (d : Int) : JSDate :=
  if _h : daysInMonth y m < d then
    if m = 12 then normDayCarry (y + 1) 1 (d - daysInMonth y m)
    else normDayCarry y (m + 1) (d - daysInMonth y m)
  else ⟨y, m, d⟩
  termination_by d.toNat
  decreasing_by
  all_goals
    have hpos : 0 < daysInMonth y m := by
      unfold daysInMonth
      split
      · split <;> norm_num
      · split <;> norm_num
    omega

/-- The JS Date constructor new Date(year, monthIndex, day) with a 0-based
monthIndex, normalizing month overflow and day overflow (for day ≥ 1).
The stored month is 1-based. -/
def jsMkDate (y : Int) (monthIndex : Int) (d : Int) : JSDate :=
  normDayCarry (y + monthIndex.fdiv 12) (monthIndex.emod 12 + 1) d

/-- VestingPattern (src/src/types/index.ts): only the yearly percentage
schedule participates in any computation. -/
structure VestingPattern where
  schedule : List Rat
  deriving DecidableEq, Repr

/-- RSUGrant (src/src/types/index.ts): the fields the calculator reads.
id, grantPrice and the pattern name never influence any verified value. -/
structure RSUGrant where
  grantDate : JSDate
  totalShares : Rat
  vestingPattern : VestingPattern
  deriving DecidableEq, Repr

/-- SalaryConfig (src/src/types/index.ts). isHistorical is never read by
the calculator. -/
structure SalaryConfig where
  amount : Rat
  year : Int
  deriving DecidableEq, Repr

/-- BonusConfig (src/src/types/index.ts). performanceMultiplier is an
optional field in TS, hence Option. -/
structure BonusConfig where
  percentage : Rat
  year : Int
  performanceMultiplier : Option Rat
  deriving DecidableEq, Repr

/-- CompensationData (src/src/types/index.ts), restricted to the fields
the calculator reads. -/
structure CompensationData where
  baseSalary : Rat
  salaryConfigs : List SalaryConfig
  baseCurrency : String
  bonusConfigs : List BonusConfig
  rsuGrants : List RSUGrant
  rsuCurrency : String
  stockPrice : Rat
  company : String
  vestingSchedule : List Int
  deriving DecidableEq, Repr

/-- YearlyProjection (src/src/types/index.ts). -/
structure YearlyProjection where
  year : Int
  baseSalary : Rat
  bonus : Rat
  rsuVest : Rat
  rsuVestInBaseCurrency : Rat
  totalComp : Rat
  totalCompInBaseCurrency : Rat
  deriving DecidableEq, Repr

/-- One vesting tranche as produced by calculateQuarterlyVestsForYear. -/
structure Vest where
  month : Int
  shares : Rat
  deriving DecidableEq, Repr

/-- JS truthiness fallback a || b on an optional number a: undefined and 0
both select b. -/
def jsOrQ (a : Option Rat) (b : Rat) : Rat :=
  match a with
  | none => b
  | some v => if v = 0 then b else v

/-- JS truthiness fallback a || b on an optional integer a: undefined and
0 both select b. -/
def jsOrI (a : Option Int) (b : Int) : Int :=
  match a with
  | none => b
  | some v => if v = 0 then b else v

/-- Stable insertion used to model Array.prototype.sort with the
comparator (a, b) => key b - key a: descending by key, equal keys keep
their original relative order (JS sort is stable). -/
def insertDescBy {α : Type} (key : α → Int) (x : α) : List α → List α
  | [] => [x]
  | y :: ys => if key y ≤ key x then x :: y :: ys else y :: insertDescBy key x ys

/-- Stable descending sort by an integer key, modelling
sort((a, b) => b.year - a.year) on a JS array. -/
def sortDescBy {α : Type} (key : α → Int) : List α → List α
  | [] => []
  | x :: xs => insertDescBy key x (sortDescBy key xs)

/-- getSalaryForYear (compensationCalculator.ts lines 95-107). The JS
expression sortedConfigs[0]?.amount || data.baseSalary || 0 falls back to
baseSalary when the selected amount is 0 or when no config matched; the
trailing || 0 is the numeric identity. -/
def getSalaryForYear (data : CompensationData) (year : Int) : Rat :=
  if data.salaryConfigs.length > 0 then
    let sortedConfigs := sortDescBy SalaryConfig.year
      (data.salaryConfigs.filter (fun config => config.year ≤ year))
    jsOrQ (sortedConfigs.head?.map SalaryConfig.amount) data.baseSalary
  else
    data.baseSalary

/-- getBonusConfigForYear (compensationCalculator.ts lines 109-116). -/
def getBonusConfigForYear (bonusConfigs : List BonusConfig) (year : Int) :
    BonusConfig :=
  let sortedConfigs := sortDescBy BonusConfig.year
    (bonusConfigs.filter (fun config => config.year ≤ year))
  sortedConfigs.head?.getD ⟨15, year, some 1⟩

/-- Reading schedule[i] for an integer index already guarded to be in
range; out of range yields the JS undefined, which never occurs at the
call sites because of the preceding guards. -/
def schedGet (schedule : List Rat) (i : Int) : Rat :=
  schedule.getD i.toNat 0

/-- calculateQuarterlyVestsForYear (compensationCalculator.ts lines
192-229). The for loop pushing onto the result array is embedded as a
fold over the vesting calendar. -/
def calculateQuarterlyVestsForYear (grant : RSUGrant) (targetYear : Int)
    (vestingSchedule : List Int) : List Vest :=
  let grantYear := grant.grantDate.year
  let grantMonth := grant.grantDate.month
  let yearsFromGrant := targetYear - grantYear
  if yearsFromGrant < 0 ∨ (grant.vestingPattern.schedule.length : Int) ≤ yearsFromGrant then
    []
  else
    let annualVestingPercentage := schedGet grant.vestingPattern.schedule yearsFromGrant
    if annualVestingPercentage = 0 then
      []
    else
      let quarterlyShares := grant.totalShares * (annualVestingPercentage / 4) / 100
      vestingSchedule.foldl
        (fun vests vestingMonth =>
          if yearsFromGrant = 0 ∧ vestingMonth < grantMonth then vests
          else vests ++ [⟨vestingMonth, quarterlyShares⟩])
        []

/-- The historical-price collaborator: the value returned by
stockPriceService.getHistoricalPrice(symbol, year, month)
(src/unnamed/part_006 lines 115-138). That method catches every failure
and returns 0 when no data exists, so it is a total function. -/
def HistLookup : Type := String → Int → Int → Rat

/-- The per-tranche price selection of calculateRSUVestingForYear
(compensationCalculator.ts lines 139-152): historical price for past
tranches with a fallback to the current price when the lookup returns 0,
current price for future tranches. -/
def vestPrice (hist : HistLookup) (stockSymbol : String) (year month : Int)
    (currentStockPrice : Rat) (now : Now) : Rat :=
  if year < now.year ∨ (year = now.year ∧ month ≤ now.month) then
    let stockPrice := hist stockSymbol year month
    if stockPrice = 0 then currentStockPrice else stockPrice
  else
    currentStockPrice

/-- The first loop of calculateRSUVestingForYear (lines 129-157): the
vesting value of the existing (real) grants, accumulated tranche by
tranche. -/
def realGrantsVesting (hist : HistLookup) (stockSymbol : String)
    (grants : List RSUGrant) (year : Int) (currentStockPrice : Rat)
    (vestingSchedule : List Int) (now : Now) : Rat :=
  (grants.map (fun grant =>
    ((calculateQuarterlyVestsForYear grant year vestingSchedule).map
      (fun vest => vest.shares *
        vestPrice hist stockSymbol year vest.month currentStockPrice now)).sum)).sum

/-- The reduce of lines 162-164: the grant with the latest grant year,
ties resolved in favour of the earliest-listed grant (JS reduce keeps the
accumulator unless the comparison is strict). none only on an empty list,
where the JS reduce would throw; the call site guards length > 0. -/
def mostRecentGrant : List RSUGrant → Option RSUGrant
  | [] => none
  | g :: gs => some (gs.foldl
      (fun latest grant =>
        if latest.grantDate.year < grant.grantDate.year then grant else latest)
      g)

/-- The synthetic grant of lines 169-173: the most recent grant with its
grant date rebuilt as new Date(futureGrantYear, getMonth(), getDate()). -/
def futureGrantFor (template : RSUGrant) (futureGrantYear : Int) : RSUGrant :=
  { template with
      grantDate :=
        jsMkDate futureGrantYear (template.grantDate.month - 1) template.grantDate.day }

/-- Integer range start, start+1, ..., stop (empty when stop < start),
modelling for (let i = start; i <= stop; i++). -/
def intRange (start stop : Int) : List Int :=
  (List.range (stop + 1 - start).toNat).map (fun k => start + (k : Int))

/-- The future-projection loop of calculateRSUVestingForYear (lines
166-186): one synthetic grant per year from currentYear + 1 through the
target year, every tranche valued at the current stock price. -/
def futureGrantsVesting (template : RSUGrant) (year : Int)
    (currentStockPrice : Rat) (vestingSchedule : List Int) (now : Now) : Rat :=
  ((intRange (now.year + 1) year).map (fun futureGrantYear =>
    ((calculateQuarterlyVestsForYear (futureGrantFor template futureGrantYear)
        year vestingSchedule).map
      (fun vest => vest.shares * currentStockPrice)).sum)).sum

/-- calculateRSUVestingForYear (compensationCalculator.ts lines 118-190):
real-grant vesting plus, for future years with at least one grant, the
extrapolated vesting of synthetic yearly grants. -/
def calculateRSUVestingForYear (hist : HistLookup) (grants : List RSUGrant)
    (year : Int) (currentStockPrice : Rat) (vestingSchedule : List Int)
    (stockSymbol : String) (now : Now) : Rat :=
  let totalVesting :=
    realGrantsVesting hist stockSymbol grants year currentStockPrice vestingSchedule now
  if grants.length > 0 ∧ now.year < year then
    match mostRecentGrant grants with
    | none => totalVesting
    | some template =>
        totalVesting + futureGrantsVesting template year currentStockPrice vestingSchedule now
  else
    totalVesting

/-- calculateTotalGrantValue (compensationCalculator.ts lines 295-297). -/
def calculateTotalGrantValue (grant : RSUGrant) (currentStockPrice : Rat) : Rat :=
  grant.totalShares * currentStockPrice

/-- The per-year body of calculateVestedValue (lines 251-290), embedded as
structural recursion over the vesting schedule with the loop year carried
alongside; annual is schedule[year - grantYear]. The month loop has no
break: the two continues become a filter, and the accumulations a sum.
The accumulator pair is (totalVested, vestedShares). -/
def vestedLoop (hist : HistLookup) (stockSymbol : String) (cal : List Int)
    (gy gm checkYear checkMonth : Int) (totalShares currentStockPrice : Rat)
    (now : Now) : List Rat → Int → Rat × Rat → Rat × Rat
  | [], _, acc => acc
  | annual :: rest, year, acc =>
      if checkYear < year then acc
      else if annual = 0 then
        vestedLoop hist stockSymbol cal gy gm checkYear checkMonth totalShares
          currentStockPrice now rest (year + 1) acc
      else
        let quarterlyShares := totalShares * (annual / 4) / 100
        let months := cal.filter (fun m =>
          decide (¬(year = gy ∧ m < gm) ∧ ¬(year = checkYear ∧ checkMonth < m)))
        let acc₁ :=
          (acc.1 + (months.map (fun m =>
              quarterlyShares * vestPrice hist stockSymbol year m currentStockPrice now)).sum,
           acc.2 + quarterlyShares * (months.length : Rat))
        vestedLoop hist stockSymbol cal gy gm checkYear checkMonth totalShares
          currentStockPrice now rest (year + 1) acc₁

/-- calculateVestedValue (compensationCalculator.ts lines 232-293),
returning (totalVested, vestedShares). The optional targetYear and
targetMonth default to the clock through JS truthiness, so an explicit 0
also selects the clock. -/
def calculateVestedValue (hist : HistLookup) (grant : RSUGrant)
    (vestingSchedule : List Int) (stockSymbol : String)
    (currentStockPrice : Rat) (targetYear targetMonth : Option Int)
    (now : Now) : Rat × Rat :=
  let checkYear := jsOrI targetYear now.year
  let checkMonth := jsOrI targetMonth now.month
  let gy := grant.grantDate.year
  let gm := grant.grantDate.month
  vestedLoop hist stockSymbol vestingSchedule gy gm checkYear checkMonth
    grant.totalShares currentStockPrice now grant.vestingPattern.schedule gy (0, 0)

/-- The inner month loop of calculateRemainingValue (lines 369-384):
count quarters of this vesting year whose month has been reached, skip
grant-year months before the grant month, and stop at the first
not-yet-reached month (hasIncompleteYear plus break). Returns the number
of completed quarters and the incomplete flag. -/
def countQuarters (vy gy gm currentYear currentMonth : Int) :
    List Int → Nat × Bool
  | [] => (0, false)
  | m :: rest =>
      if vy = gy ∧ m < gm then countQuarters vy gy gm currentYear currentMonth rest
      else if vy < currentYear ∨ (vy = currentYear ∧ m ≤ currentMonth) then
        let p := countQuarters vy gy gm currentYear currentMonth rest
        (p.1 + 1, p.2)
      else (0, true)

/-- The outer year loop of calculateRemainingValue (lines 358-393),
embedded as structural recursion over the schedule with the vesting year
carried alongside: accumulate completedQuarters * annual / 4 and stop
after an incomplete year or once past the currentYear parameter. -/
def remPctLoop (cal : List Int) (gy gm currentYear currentMonth : Int) :
    List Rat → Int → Rat → Rat
  | [], _, acc => acc
  | annual :: rest, vy, acc =>
      let quarterlyVestingPercentage := annual / 4
      let q := countQuarters vy gy gm currentYear currentMonth cal
      let acc₁ := acc + (q.1 : Rat) * quarterlyVestingPercentage
      if q.2 ∨ currentYear < vy then acc₁
      else remPctLoop cal gy gm currentYear currentMonth rest (vy + 1) acc₁

/-- calculateRemainingValue (compensationCalculator.ts lines 336-399).
currentYear is a parameter; currentMonth is read from the clock. The
optional vestingSchedule defaults to [2, 5, 8, 11] (an explicitly passed
empty list is truthy in JS and is kept). -/
def calculateRemainingValue (grant : RSUGrant) (currentStockPrice : Rat)
    (currentYear : Int) (vestingSchedule : Option (List Int)) (now : Now) : Rat :=
  let gy := grant.grantDate.year
  let gm := grant.grantDate.month
  let currentMonth := now.month
  let yearsFromGrant := currentYear - gy
  if yearsFromGrant < 0 then
    calculateTotalGrantValue grant currentStockPrice
  else if (grant.vestingPattern.schedule.length : Int) ≤ yearsFromGrant then
    0
  else
    let vestingMonths := vestingSchedule.getD [2, 5, 8, 11]
    let totalVestedPercentage :=
      remPctLoop vestingMonths gy gm currentYear currentMonth
        grant.vestingPattern.schedule gy 0
    let remainingPercentage := max 0 (100 - totalVestedPercentage)
    grant.totalShares * remainingPercentage / 100 * currentStockPrice

/-- getStockSymbol (compensationCalculator.ts lines 35-47). -/
def getStockSymbol (companyName : String) : String :=
  if companyName = "Meta" then "META"
  else if companyName = "Apple" then "AAPL"
  else if companyName = "Google" then "GOOGL"
  else if companyName = "Amazon" then "AMZN"
  else if companyName = "Microsoft" then "MSFT"
  else if companyName = "Tesla" then "TSLA"
  else if companyName = "Netflix" then "NFLX"
  else if companyName = "NVIDIA" then "NVDA"
  else "META"

/-- The three data sources ExchangeRateService.getExchangeRate
(src/unnamed/part_005 lines 230-278) consults for a currency pair, in
consultation order: a fresh in-memory cache entry, a successful network
fetch carrying the requested rate, and a localStorage copy. none means
the source does not yield a rate (stale or absent cache, network error or
missing key, nothing stored). -/
structure RateSources where
  cached : Option Rat
  fetched : Option Rat
  stored : Option Rat
  deriving DecidableEq, Repr

/-- ExchangeRateService.getExchangeRate (src/unnamed/part_005 lines
230-278): 1 for equal currencies, else the first available source, and a
thrown error when every source fails. -/
def getExchangeRate (sources : String → String → RateSources)
    (src dst : String) : Except String Rat :=
  if src = dst then Except.ok 1
  else
    match (sources src dst).cached with
    | some rate => Except.ok rate
    | none =>
      match (sources src dst).fetched with
      | some rate => Except.ok rate
      | none =>
        match (sources src dst).stored with
        | some rate => Except.ok rate
        | none => Except.error ("Unable to fetch exchange rate from " ++ src ++ " to " ++ dst)

/-- calculateYearlyProjection (compensationCalculator.ts lines 49-93). -/
def calculateYearlyProjection (hist : HistLookup) (data : CompensationData)
    (year : Int) (exchangeRate : Rat) (stockSymbol : String) (now : Now) :
    YearlyProjection :=
  let baseSalary := getSalaryForYear data year
  let bonusConfig := getBonusConfigForYear data.bonusConfigs year
  let bonus := baseSalary * (bonusConfig.percentage / 100) *
    jsOrQ bonusConfig.performanceMultiplier 1
  let rsuVest := calculateRSUVestingForYear hist data.rsuGrants year
    data.stockPrice data.vestingSchedule stockSymbol now
  let rsuVestInBaseCurrency :=
    if data.baseCurrency = data.rsuCurrency then rsuVest else rsuVest * exchangeRate
  let totalComp := baseSalary + bonus + rsuVest
  let totalCompInBaseCurrency :=
    if data.baseCurrency = data.rsuCurrency then totalComp
    else baseSalary + bonus + rsuVestInBaseCurrency
  { year := year
    baseSalary := baseSalary
    bonus := bonus
    rsuVest := rsuVest
    rsuVestInBaseCurrency := rsuVestInBaseCurrency
    totalComp := totalComp
    totalCompInBaseCurrency := totalCompInBaseCurrency }

/-- calculateProjections (compensationCalculator.ts lines 7-33): resolve
the exchange rate once (1 for equal currencies), then project every year
of the inclusive range. A failure of the rate collaborator propagates:
there is no catch around the await. -/
def calculateProjections (hist : HistLookup)
    (sources : String → String → RateSources) (data : CompensationData)
    (startYear endYear : Int) (now : Now) : Except String (List YearlyProjection) := do
  let exchangeRate ←
    if data.baseCurrency = data.rsuCurrency then pure 1
    else getExchangeRate sources data.rsuCurrency data.baseCurrency
  let stockSymbol := getStockSymbol data.company
  pure ((intRange startYear endYear).map (fun year =>
    calculateYearlyProjection hist data year exchangeRate stockSymbol now))

/-- Specification-side counting device: the number of vesting-calendar
months of year y that the two calculators count, namely the months not
skipped by the grant-year rule and already reached at the check point
(checkY, checkM). -/
def tranchesCounted (cal : List Int) (gy gm checkY checkM y : Int) : Nat :=
  (cal.filter (fun m =>
    decide (¬(y = gy ∧ m < gm) ∧ (y < checkY ∨ (y = checkY ∧ m ≤ checkM))))).length

/-- Specification-side vested percentage: the sum over schedule years of
annual / 4 times the number of counted months of that year. -/
def weightedQuarterPct (cal : List Int) (gy gm checkY checkM : Int) :
    List Rat → Int → Rat
  | [], _ => 0
  | annual :: rest, y =>
      annual / 4 * (tranchesCounted cal gy gm checkY checkM y : Rat)
        + weightedQuarterPct cal gy gm checkY checkM rest (y + 1)

/-- Modelled from the claim on future-grant extrapolation: a synthetic
grant dated in year g with the original month and day kept unchanged
(the source instead goes through the JS Date constructor, which can move
the date when the month/day pair does not exist in year g). -/
def claimFutureGrantFor (template : RSUGrant) (g : Int) : RSUGrant :=
  { template with
      grantDate := ⟨g, template.grantDate.month, template.grantDate.day⟩ }

/-- Modelled from the claim on future-grant extrapolation, for a config
with exactly one grant and a target year of currentYear + 2: the original
grant tranches plus the tranches of synthetic grants dated currentYear + 1
and currentYear + 2 keeping the original month and day, every tranche
valued at the caller-supplied current stock price. -/
def claimC3RsuVest (grant : RSUGrant) (year : Int) (currentStockPrice : Rat)
    (cal : List Int) (now : Now) : Rat :=
  ((calculateQuarterlyVestsForYear grant year cal).map
    (fun v => v.shares * currentStockPrice)).sum
  + ((calculateQuarterlyVestsForYear (claimFutureGrantFor grant (now.year + 1)) year cal).map
      (fun v => v.shares * currentStockPrice)).sum
  + ((calculateQuarterlyVestsForYear (claimFutureGrantFor grant (now.year + 2)) year cal).map
      (fun v => v.shares * currentStockPrice)).sum

/-- A historical-price collaborator with no data at all: every lookup
returns the unavailable sentinel 0. -/
def histNone : HistLookup := fun _ _ _ => 0

/-- The example grant of the specification: 1000 shares dated 2022-03-15
with the equal 25 percent per year pattern. -/
def grantMarch2022 : RSUGrant := ⟨⟨2022, 3, 15⟩, 1000, ⟨[25, 25, 25, 25]⟩⟩

/-- A grant dated on a leap day, 2024-02-29, 1000 shares, equal pattern. -/
def grantFeb29 : RSUGrant := ⟨⟨2024, 2, 29⟩, 1000, ⟨[25, 25, 25, 25]⟩⟩

/-- A config whose only salary config carries amount 0 next to a nonzero
legacy baseSalary. -/
def dataSalaryZero : CompensationData :=
  ⟨50000, [⟨0, 2020⟩], "USD", [], [], "USD", 100, "Meta", [2, 5, 8, 11]⟩

/-- A config whose only bonus config carries performanceMultiplier 0. -/
def dataBonusZeroMult : CompensationData :=
  ⟨100000, [], "USD", [⟨10, 2020, some 0⟩], [], "USD", 100, "Meta", [2, 5, 8, 11]⟩

/-- A config with two salary configs in distinct years and a nonzero
legacy baseSalary. -/
def dataSalaryOne : CompensationData :=
  ⟨50000, [⟨120000, 2020⟩, ⟨140000, 2024⟩], "USD", [], [], "USD", 100, "Meta",
    [2, 5, 8, 11]⟩

/-- A config with two bonus configs in distinct years. -/
def dataBonusOne : CompensationData :=
  ⟨100000, [], "USD", [⟨10, 2020, some (3 / 2)⟩, ⟨20, 2025, none⟩], [], "USD",
    100, "Meta", [2, 5, 8, 11]⟩

/-- A config with differing base and RSU currencies, used to exercise the
exchange-rate path. -/
def dataTwoCurrencies : CompensationData :=
  ⟨100000, [], "GBP", [], [], "USD", 100, "Meta", [2, 5, 8, 11]⟩

/-- An exchange-rate collaborator with every data source failing: stale
cache, network error, nothing in localStorage. -/
def noRateSources : String → String → RateSources := fun _ _ => ⟨none, none, none⟩

/-- A grant dated 2022-01-15, in the first calendar month, 1000 shares,
equal pattern. -/
def grantJan2022 : RSUGrant := ⟨⟨2022, 1, 15⟩, 1000, ⟨[25, 25, 25, 25]⟩⟩

theorem mem_insertDescBy {α : Type} (key : α → Int) (x z : α) :
    ∀ l : List α, z ∈ insertDescBy key x l ↔ z = x ∨ z ∈ l := by
  intro l
  induction l with
  | nil => simp [insertDescBy]
  | cons y ys ih =>
      simp only [insertDescBy]
      split
      · simp [List.mem_cons]
      · simp only [List.mem_cons, ih]
        tauto

theorem mem_sortDescBy {α : Type} (key : α → Int) (z : α) :
    ∀ l : List α, z ∈ sortDescBy key l ↔ z ∈ l := by
  intro l
  induction l with
  | nil => simp [sortDescBy]
  | cons y ys ih => simp [sortDescBy, mem_insertDescBy, ih, List.mem_cons]

theorem head_insertDescBy_of_lt {α : Type} (key : α → Int) (x : α)
    (l : List α) (h : ∀ y ∈ l, key y < key x) :
    (insertDescBy key x l).head? = some x := by
  cases l with
  | nil => rfl
  | cons b t =>
      have hb : key b ≤ key x := le_of_lt (h b (by simp))
      simp [insertDescBy, hb]

theorem head_sortDescBy_of_max {α : Type} (key : α → Int) (x : α) :
    ∀ l : List α, x ∈ l → (∀ y ∈ l, y = x ∨ key y < key x) →
      (sortDescBy key l).head? = some x := by
  intro l
  induction l with
  | nil => intro h; simp at h
  | cons a as ih =>
      intro hmem H
      by_cases hx : x ∈ as
      · have hhead := ih hx (fun y hy => H y (List.mem_cons_of_mem a hy))
        cases hl : sortDescBy key as with
        | nil => rw [hl] at hhead; simp at hhead
        | cons b t =>
            rw [hl] at hhead
            simp only [List.head?_cons, Option.some.injEq] at hhead
            subst hhead
            rcases H a (List.mem_cons_self a as) with ha | ha
            · subst ha
              simp [sortDescBy, hl, insertDescBy]
            · simp [sortDescBy, hl, insertDescBy, not_le.mpr ha]
      · have hax : a = x := by
          rcases List.mem_cons.mp hmem with h | h
          · exact h.symm
          · exact absurd h hx
        subst hax
        simp only [sortDescBy]
        apply head_insertDescBy_of_lt
        intro y hy
        have hyas : y ∈ as := (mem_sortDescBy key y as).mp hy
        rcases H y (List.mem_cons_of_mem a hyas) with rfl | h2
        · exact absurd hyas hx
        · exact h2

theorem foldl_skip_push {β : Type} (p : Int → Prop) [DecidablePred p] (f : Int → β) :
    ∀ (l : List Int) (init : List β),
      l.foldl (fun acc m => if p m then acc else acc ++ [f m]) init
        = init ++ (l.filter (fun m => decide (¬ p m))).map f := by
  intro l
  induction l with
  | nil => intro init; simp
  | cons m rest ih =>
      intro init
      by_cases hm : p m
      · simp [List.foldl_cons, List.filter_cons, hm, ih]
      · simp [List.foldl_cons, List.filter_cons, hm, ih]

theorem intRange_of_lt (a b : Int) (h : b < a) : intRange a b = [] := by
  unfold intRange
  have h0 : (b + 1 - a).toNat = 0 := by omega
  simp [h0]

theorem intRange_succ_two (n : Int) : intRange (n + 1) (n + 2) = [n + 1, n + 2] := by
  unfold intRange
  have h2 : (n + 2 + 1 - (n + 1)).toNat = 2 := by omega
  rw [h2]
  norm_num [List.range_succ]
  ring

theorem jsMkDate_of_valid (y m d : Int) (h1 : 1 ≤ m) (h2 : m ≤ 12)
    (hd : d ≤ daysInMonth y m) : jsMkDate y (m - 1) d = ⟨y, m, d⟩ := by
  unfold jsMkDate
  have hf : (m - 1).fdiv 12 = 0 := by
    rw [Int.fdiv_eq_ediv _ (by omega)]
    omega
  have he : (m - 1).emod 12 = m - 1 := by
    show (m - 1) % 12 = m - 1
    omega
  rw [hf, he, show y + 0 = y from by ring, show m - 1 + 1 = m from by ring]
  unfold normDayCarry
  rw [dif_neg (not_lt.mpr hd)]

theorem tranchesCounted_eq_zero (cal : List Int) (gy gm checkY checkM y : Int)
    (h : checkY < y) : tranchesCounted cal gy gm checkY checkM y = 0 := by
  simp only [tranchesCounted, List.length_eq_zero, List.filter_eq_nil_iff,
    decide_eq_true_eq]
  intro m _
  omega

theorem weightedQuarterPct_eq_zero (cal : List Int) (gy gm checkY checkM : Int) :
    ∀ (sched : List Rat) (y : Int), checkY < y →
      weightedQuarterPct cal gy gm checkY checkM sched y = 0 := by
  intro sched
  induction sched with
  | nil => intro y _; rfl
  | cons annual rest ih =>
      intro y h
      rw [weightedQuarterPct, tranchesCounted_eq_zero _ _ _ _ _ _ h,
        ih (y + 1) (by omega)]
      norm_num

theorem vestedLoop_snd (hist : HistLookup) (sym : String) (cal : List Int)
    (gy gm checkY checkM : Int) (ts price : Rat) (now : Now) :
    ∀ (sched : List Rat) (y : Int) (acc : Rat × Rat),
      (vestedLoop hist sym cal gy gm checkY checkM ts price now sched y acc).2
        = acc.2 + ts / 100 * weightedQuarterPct cal gy gm checkY checkM sched y := by
  intro sched
  induction sched with
  | nil =>
      intro y acc
      simp [vestedLoop, weightedQuarterPct]
  | cons annual rest ih =>
      intro y acc
      by_cases hbreak : checkY < y
      · simp only [vestedLoop, if_pos hbreak]
        rw [weightedQuarterPct, tranchesCounted_eq_zero _ _ _ _ _ _ hbreak,
          weightedQuarterPct_eq_zero _ _ _ _ _ rest (y + 1) (by omega)]
        norm_num
      · by_cases hz : annual = 0
        · simp only [vestedLoop, if_neg hbreak, if_pos hz]
          rw [ih, weightedQuarterPct]
          subst hz
          ring
        · simp only [vestedLoop, if_neg hbreak, if_neg hz]
          rw [ih]
          have hcount : (cal.filter (fun m =>
              decide (¬(y = gy ∧ m < gm) ∧ ¬(y = checkY ∧ checkM < m)))).length
                = tranchesCounted cal gy gm checkY checkM y := by
            unfold tranchesCounted
            congr 1
            apply List.filter_congr
            intro m _
            rw [decide_eq_decide]
            omega
          rw [hcount, weightedQuarterPct]
          ring

theorem countQuarters_fst (gy gm checkY checkM : Int) :
    ∀ cal : List Int, cal.Pairwise (· ≤ ·) → ∀ vy : Int,
      (countQuarters vy gy gm checkY checkM cal).1
        = tranchesCounted cal gy gm checkY checkM vy := by
  intro cal
  induction cal with
  | nil => intro _ vy; rfl
  | cons m rest ih =>
      intro hs vy
      have hmono := (List.pairwise_cons.mp hs).1
      have hrest := (List.pairwise_cons.mp hs).2
      by_cases hskip : vy = gy ∧ m < gm
      · rw [countQuarters, if_pos hskip, ih hrest vy]
        have hpred : ¬(¬(vy = gy ∧ m < gm)
            ∧ (vy < checkY ∨ (vy = checkY ∧ m ≤ checkM))) := fun hc => hc.1 hskip
        simp only [tranchesCounted, List.filter_cons, decide_eq_true_eq, if_neg hpred]
      · by_cases hreach : vy < checkY ∨ (vy = checkY ∧ m ≤ checkM)
        · rw [countQuarters, if_neg hskip, if_pos hreach]
          simp only
          rw [ih hrest vy]
          simp only [tranchesCounted, List.filter_cons, decide_eq_true_eq,
            if_pos (show ¬(vy = gy ∧ m < gm)
              ∧ (vy < checkY ∨ (vy = checkY ∧ m ≤ checkM)) from ⟨hskip, hreach⟩)]
          simp [List.length_cons]
        · rw [countQuarters, if_neg hskip, if_neg hreach]
          symm
          simp only [tranchesCounted, List.length_eq_zero, List.filter_eq_nil_iff,
            decide_eq_true_eq]
          intro m₁ hm₁
          rcases List.mem_cons.mp hm₁ with rfl | hm₁rest
          · exact fun hc => hreach hc.2
          · have hle : m ≤ m₁ := hmono m₁ hm₁rest
            omega

theorem countQuarters_snd (gy gm checkY checkM : Int) :
    ∀ (cal : List Int) (vy : Int),
      (countQuarters vy gy gm checkY checkM cal).2 = true → checkY ≤ vy := by
  intro cal
  induction cal with
  | nil =>
      intro vy h
      simp [countQuarters] at h
  | cons m rest ih =>
      intro vy h
      rw [countQuarters] at h
      by_cases hskip : vy = gy ∧ m < gm
      · rw [if_pos hskip] at h
        exact ih vy h
      · by_cases hreach : vy < checkY ∨ (vy = checkY ∧ m ≤ checkM)
        · rw [if_neg hskip, if_pos hreach] at h
          exact ih vy h
        · omega

theorem remPctLoop_eq (cal : List Int) (gy gm checkY checkM : Int)
    (hs : cal.Pairwise (· ≤ ·)) :
    ∀ (sched : List Rat) (vy : Int) (acc : Rat),
      remPctLoop cal gy gm checkY checkM sched vy acc
        = acc + weightedQuarterPct cal gy gm checkY checkM sched vy := by
  intro sched
  induction sched with
  | nil =>
      intro vy acc
      simp [remPctLoop, weightedQuarterPct]
  | cons annual rest ih =>
      intro vy acc
      simp only [remPctLoop]
      by_cases hbreak :
          (countQuarters vy gy gm checkY checkM cal).2 = true ∨ checkY < vy
      · rw [if_pos hbreak]
        have hz : weightedQuarterPct cal gy gm checkY checkM rest (vy + 1) = 0 := by
          apply weightedQuarterPct_eq_zero
          rcases hbreak with hb | hb
          · have := countQuarters_snd gy gm checkY checkM cal vy hb
            omega
          · omega
        rw [weightedQuarterPct, hz, countQuarters_fst gy gm checkY checkM cal hs vy]
        ring
      · rw [if_neg hbreak, ih (vy + 1) _,
          weightedQuarterPct, countQuarters_fst gy gm checkY checkM cal hs vy]
        ring

theorem weightedQuarterPct_le_sum (cal : List Int) (gy gm checkY checkM : Int)
    (hcal : cal.length ≤ 4) :
    ∀ sched : List Rat, (∀ a ∈ sched, 0 ≤ a) → ∀ y : Int,
      weightedQuarterPct cal gy gm checkY checkM sched y ≤ sched.sum := by
  intro sched
  induction sched with
  | nil =>
      intro _ y
      simp [weightedQuarterPct]
  | cons annual rest ih =>
      intro hnn y
      have ha : 0 ≤ annual := hnn annual (by simp)
      have hr : ∀ a ∈ rest, 0 ≤ a := fun a haa => hnn a (by simp [haa])
      rw [weightedQuarterPct, List.sum_cons]
      have hT : ((tranchesCounted cal gy gm checkY checkM y : Nat) : Rat) ≤ 4 := by
        have hlen : tranchesCounted cal gy gm checkY checkM y ≤ cal.length := by
          unfold tranchesCounted
          exact List.length_filter_le _ _
        exact_mod_cast le_trans hlen hcal
      have hterm : annual / 4 * ((tranchesCounted cal gy gm checkY checkM y : Nat) : Rat)
          ≤ annual := by
        calc annual / 4 * ((tranchesCounted cal gy gm checkY checkM y : Nat) : Rat)
            ≤ annual / 4 * 4 := by
              apply mul_le_mul_of_nonneg_left hT (by positivity)
          _ = annual := by ring
      exact add_le_add hterm (ih hr (y + 1))

theorem calculateVestedValue_snd (hist : HistLookup) (grant : RSUGrant)
    (cal : List Int) (sym : String) (price : Rat) (Y : Int) (now : Now)
    (hY : Y ≠ 0) :
    (calculateVestedValue hist grant cal sym price (some Y) none now).2
      = grant.totalShares / 100
        * weightedQuarterPct cal grant.grantDate.year grant.grantDate.month Y
            now.month grant.vestingPattern.schedule grant.grantDate.year := by
  simp only [calculateVestedValue, jsOrI, if_neg hY]
  rw [vestedLoop_snd]
  norm_num

/-- C1: for every RSU grant, target year and vesting calendar, the vesting
resolver calculateQuarterlyVestsForYear returns the empty sequence when
yearsFromGrant = targetYear - year(grantDate) is negative or at least the
schedule length; otherwise, when schedule[yearsFromGrant] is nonzero, it
emits exactly one tranche of totalShares * (annualPct / 4) / 100 shares
per calendar month, skipping a month exactly when yearsFromGrant = 0 and
the month is strictly before the grant month. -/
theorem c1_quarterly_vests_characterization (grant : RSUGrant)
    (targetYear : Int) (cal : List Int) :
    ((targetYear - grant.grantDate.year < 0
        ∨ (grant.vestingPattern.schedule.length : Int) ≤ targetYear - grant.grantDate.year) →
      calculateQuarterlyVestsForYear grant targetYear cal = [])
    ∧ (0 ≤ targetYear - grant.grantDate.year →
      targetYear - grant.grantDate.year < (grant.vestingPattern.schedule.length : Int) →
      schedGet grant.vestingPattern.schedule (targetYear - grant.grantDate.year) ≠ 0 →
      calculateQuarterlyVestsForYear grant targetYear cal
        = (cal.filter (fun m =>
            decide (¬(targetYear - grant.grantDate.year = 0 ∧ m < grant.grantDate.month)))).map
            (fun m => Vest.mk m (grant.totalShares
              * (schedGet grant.vestingPattern.schedule (targetYear - grant.grantDate.year) / 4)
              / 100))) := by
  constructor
  · intro h
    simp only [calculateQuarterlyVestsForYear]
    rw [if_pos h]
  · intro h1 h2 h3
    simp only [calculateQuarterlyVestsForYear]
    rw [if_neg (by omega), if_neg h3]
    exact (foldl_skip_push _ _ cal []).trans (List.nil_append _)

/-- Witness for C1 at the 2022-03-15 example grant, target year 2022 and
the Meta calendar. -/
theorem c1_quarterly_vests_characterization_witness :
    calculateQuarterlyVestsForYear grantMarch2022 2022 [2, 5, 8, 11]
      = ([2, 5, 8, 11].filter (fun m =>
          decide (¬((2022 : Int) - grantMarch2022.grantDate.year = 0
            ∧ m < grantMarch2022.grantDate.month)))).map
          (fun m => Vest.mk m (grantMarch2022.totalShares
            * (schedGet grantMarch2022.vestingPattern.schedule
                (2022 - grantMarch2022.grantDate.year) / 4) / 100)) :=
  (c1_quarterly_vests_characterization grantMarch2022 2022 [2, 5, 8, 11]).2
    (by norm_num [grantMarch2022])
    (by norm_num [grantMarch2022])
    (by norm_num [grantMarch2022, schedGet])

/-- C2: in calculateRSUVestingForYear, every tranche of a real grant whose
date is in the past (target year before the clock year, or equal with
tranche month at most the clock month) is valued at the historical price,
falling back to the caller-supplied current price when the lookup yields a
non-positive price, and every future tranche is valued at the current
price. Stated for realGrantsVesting, the real-grant part of
calculateRSUVestingForYear, for a lookup that never returns a negative
price (its contract: 0 signals unavailable data). -/
theorem c2_tranche_pricing (hist : HistLookup) (sym : String)
    (grants : List RSUGrant) (year : Int) (price : Rat) (cal : List Int)
    (now : Now) (hh : ∀ y m, 0 ≤ hist sym y m) :
    realGrantsVesting hist sym grants year price cal now
      = (grants.map (fun g =>
          ((calculateQuarterlyVestsForYear g year cal).map (fun v =>
            v.shares *
              (if year < now.year ∨ (year = now.year ∧ v.month ≤ now.month)
               then (if 0 < hist sym year v.month then hist sym year v.month else price)
               else price))).sum)).sum := by
  unfold realGrantsVesting
  congr 1
  apply List.map_congr_left
  intro g _
  congr 1
  apply List.map_congr_left
  intro v _
  congr 1
  simp only [vestPrice]
  by_cases hc : year < now.year ∨ (year = now.year ∧ v.month ≤ now.month)
  · rw [if_pos hc, if_pos hc]
    rcases lt_or_eq_of_le (hh year v.month) with hpos | hzero
    · rw [if_neg (ne_of_gt hpos), if_pos hpos]
    · rw [← hzero]
      simp
  · rw [if_neg hc, if_neg hc]

/-- Witness for C2 at the example grant with an empty historical dataset. -/
theorem c2_tranche_pricing_witness :
    realGrantsVesting histNone "META" [grantMarch2022] 2022 100 [2, 5, 8, 11] ⟨2025, 10⟩
      = ([grantMarch2022].map (fun g =>
          ((calculateQuarterlyVestsForYear g 2022 [2, 5, 8, 11]).map (fun v =>
            v.shares *
              (if 2022 < (2025 : Int) ∨ ((2022 : Int) = 2025 ∧ v.month ≤ 10)
               then (if 0 < histNone "META" 2022 v.month then histNone "META" 2022 v.month else 100)
               else 100))).sum)).sum :=
  c2_tranche_pricing histNone "META" [grantMarch2022] 2022 100 [2, 5, 8, 11]
    ⟨2025, 10⟩ (fun _ _ => le_refl 0)

/-- C10: calculateRemainingValue never returns a negative value for
nonnegative total shares and a nonnegative current stock price: in the
in-progress branch the vested percentage is clamped through
max 0 (100 - totalVestedPercentage). -/
theorem c10_remaining_value_nonneg (grant : RSUGrant) (price : Rat)
    (currentYear : Int) (cal : Option (List Int)) (now : Now)
    (hts : 0 ≤ grant.totalShares) (hp : 0 ≤ price) :
    0 ≤ calculateRemainingValue grant price currentYear cal now := by
  simp only [calculateRemainingValue]
  split
  · exact mul_nonneg hts hp
  · split
    · exact le_refl 0
    · exact mul_nonneg
        (div_nonneg (mul_nonneg hts (le_max_left _ _)) (by norm_num)) hp

/-- Witness for C10 at the example grant over a schedule summing past 100. -/
theorem c10_remaining_value_nonneg_witness :
    0 ≤ calculateRemainingValue ⟨⟨2022, 3, 15⟩, 1000, ⟨[80, 80, 80, 80]⟩⟩ 100 2023
      (some [2, 5, 8, 11]) ⟨2026, 3⟩ :=
  c10_remaining_value_nonneg ⟨⟨2022, 3, 15⟩, 1000, ⟨[80, 80, 80, 80]⟩⟩ 100 2023
    (some [2, 5, 8, 11]) ⟨2026, 3⟩ (by norm_num) (by norm_num)

/-- C5 counterexample: a salary config with year 2020 and amount 0 is the
latest config at or before 2023, yet getSalaryForYear returns the legacy
baseSalary 50000 instead of the amount 0: the JS expression
sortedConfigs[0]?.amount || data.baseSalary || 0 treats the amount 0 as
falsy. -/
theorem c5_salary_resolution_counterexample :
    getSalaryForYear dataSalaryZero 2023 = 50000 ∧ (50000 : Rat) ≠ 0 := by
  constructor
  · norm_num [getSalaryForYear, dataSalaryZero, sortDescBy, insertDescBy, jsOrQ]
  · norm_num

/-- C5 amended: when at least one salary config has year at most the query
year, the effective base salary is the amount of the latest such config
provided that amount is nonzero; a zero amount, being falsy in JS, falls
back to the legacy baseSalary, as does the absence of any config at or
before the query year. -/
theorem c5_salary_resolution_amended (data : CompensationData) (year : Int) :
    (∀ c ∈ data.salaryConfigs, c.year ≤ year →
      (∀ c₁ ∈ data.salaryConfigs, c₁.year ≤ year → c₁ = c ∨ c₁.year < c.year) →
      c.amount ≠ 0 →
      getSalaryForYear data year = c.amount)
    ∧ ((∀ c ∈ data.salaryConfigs, year < c.year) →
      getSalaryForYear data year = data.baseSalary) := by
  constructor
  · intro c hmem hle hmax hnz
    unfold getSalaryForYear
    have hlen : data.salaryConfigs.length > 0 := by
      cases hcfg : data.salaryConfigs with
      | nil => rw [hcfg] at hmem; simp at hmem
      | cons a as => simp [hcfg]
    rw [if_pos hlen]
    have hhead : (sortDescBy SalaryConfig.year
        (data.salaryConfigs.filter (fun config => config.year ≤ year))).head?
          = some c := by
      apply head_sortDescBy_of_max
      · exact List.mem_filter.mpr ⟨hmem, by simpa using hle⟩
      · intro c₁ hc₁
        exact hmax c₁ (List.mem_filter.mp hc₁).1
          (by simpa using (List.mem_filter.mp hc₁).2)
    simp only [hhead, Option.map_some, Option.map_some', jsOrQ]
    rw [if_neg hnz]
  · intro hall
    unfold getSalaryForYear
    split
    · have hfil : data.salaryConfigs.filter (fun config => config.year ≤ year) = [] := by
        rw [List.filter_eq_nil_iff]
        intro c hc
        have := hall c hc
        simp only [decide_eq_true_eq]
        omega
      simp only [hfil]
      simp [sortDescBy, jsOrQ]
    · rfl

/-- Witness for C5: the 2020 config wins at query year 2023, and a config
list wholly in the future falls back to the legacy baseSalary. -/
theorem c5_salary_resolution_amended_witness :
    getSalaryForYear dataSalaryOne 2023 = 120000
    ∧ getSalaryForYear dataTwoCurrencies 2023 = 100000 := by
  constructor
  · exact (c5_salary_resolution_amended dataSalaryOne 2023).1 ⟨120000, 2020⟩
      (by simp [dataSalaryOne])
      (by norm_num)
      (by
        intro c₁ hc₁ hle
        simp only [dataSalaryOne, List.mem_cons, List.not_mem_nil, or_false] at hc₁
        rcases hc₁ with rfl | rfl
        · exact Or.inl rfl
        · norm_num at hle)
      (by norm_num)
  · exact (c5_salary_resolution_amended dataTwoCurrencies 2023).2
      (by simp [dataTwoCurrencies])

/-- C6 counterexample: the latest bonus config before 2023 carries
performanceMultiplier 0, yet the bonus is computed with multiplier 1: the
JS expression bonusConfig.performanceMultiplier || 1 treats 0 as falsy, so
the projected bonus is 100000 * 10 percent * 1 = 10000 rather than the
0 the claim implies. -/
theorem c6_bonus_resolution_counterexample :
    (calculateYearlyProjection histNone dataBonusZeroMult 2023 1 "META" ⟨2025, 10⟩).bonus
      = 10000
    ∧ (10000 : Rat) ≠ 100000 * (10 / 100) * 0 := by
  constructor
  · norm_num [calculateYearlyProjection, getSalaryForYear, getBonusConfigForYear,
      dataBonusZeroMult, sortDescBy, insertDescBy, jsOrQ]
  · norm_num

/-- C6 amended: the projected bonus is baseSalary * percentage / 100 times
the performanceMultiplier of the latest bonus config at or before the
query year, where a missing or zero multiplier is treated as 1 (JS
falsiness); when no config is at or before the query year the defaults of
15 percent and multiplier 1 apply. -/
theorem c6_bonus_resolution_amended (hist : HistLookup) (data : CompensationData)
    (year : Int) (exchangeRate : Rat) (sym : String) (now : Now) :
    (∀ c ∈ data.bonusConfigs, c.year ≤ year →
      (∀ c₁ ∈ data.bonusConfigs, c₁.year ≤ year → c₁ = c ∨ c₁.year < c.year) →
      (calculateYearlyProjection hist data year exchangeRate sym now).bonus
        = getSalaryForYear data year * (c.percentage / 100)
          * jsOrQ c.performanceMultiplier 1)
    ∧ ((∀ c ∈ data.bonusConfigs, year < c.year) →
      (calculateYearlyProjection hist data year exchangeRate sym now).bonus
        = getSalaryForYear data year * (15 / 100) * 1) := by
  constructor
  · intro c hmem hle hmax
    simp only [calculateYearlyProjection]
    have hhead : (sortDescBy BonusConfig.year
        (data.bonusConfigs.filter (fun config => config.year ≤ year))).head?
          = some c := by
      apply head_sortDescBy_of_max
      · exact List.mem_filter.mpr ⟨hmem, by simpa using hle⟩
      · intro c₁ hc₁
        exact hmax c₁ (List.mem_filter.mp hc₁).1
          (by simpa using (List.mem_filter.mp hc₁).2)
    unfold getBonusConfigForYear
    simp only [hhead, Option.getD_some]
  · intro hall
    simp only [calculateYearlyProjection]
    have hfil : data.bonusConfigs.filter (fun config => config.year ≤ year) = [] := by
      rw [List.filter_eq_nil_iff]
      intro c hc
      have := hall c hc
      simp only [decide_eq_true_eq]
      omega
    unfold getBonusConfigForYear
    simp only [hfil]
    simp [sortDescBy, jsOrQ]

/-- Witness for C6: the 2020 config with multiplier 3/2 wins at query
year 2023, and an empty bonus-config list yields the 15 percent default. -/
theorem c6_bonus_resolution_amended_witness :
    (calculateYearlyProjection histNone dataBonusOne 2023 1 "META" ⟨2025, 10⟩).bonus
      = getSalaryForYear dataBonusOne 2023 * (10 / 100) * jsOrQ (some (3 / 2)) 1
    ∧ (calculateYearlyProjection histNone dataTwoCurrencies 2023 1 "META" ⟨2025, 10⟩).bonus
      = getSalaryForYear dataTwoCurrencies 2023 * (15 / 100) * 1 := by
  constructor
  · exact (c6_bonus_resolution_amended histNone dataBonusOne 2023 1 "META"
      ⟨2025, 10⟩).1 ⟨10, 2020, some (3 / 2)⟩
      (by simp [dataBonusOne])
      (by norm_num)
      (by
        intro c₁ hc₁ hle
        simp only [dataBonusOne, List.mem_cons, List.not_mem_nil, or_false] at hc₁
        rcases hc₁ with rfl | rfl
        · exact Or.inl rfl
        · norm_num at hle)
  · exact (c6_bonus_resolution_amended histNone dataTwoCurrencies 2023 1 "META"
      ⟨2025, 10⟩).2 (by simp [dataTwoCurrencies])

/-- C7 counterexample: with differing currencies and a rate collaborator
whose every source fails, calculateProjections returns a thrown error, not
a complete projection sequence computed with rate 1: the await of
getExchangeRate has no catch around it. -/
theorem c7_rate_fallback_counterexample :
    calculateProjections histNone noRateSources dataTwoCurrencies 2024 2025 ⟨2025, 10⟩
      = Except.error "Unable to fetch exchange rate from USD to GBP" := by
  rfl

/-- C7 amended: when the base currency differs from the RSU currency and
the rate collaborator fails on every source (stale cache, network error,
nothing stored), the series build propagates the failure as an error and
returns no projections; the rate 1 shortcut applies only when the two
currencies are equal. The 1:1 fallback of the claim lives in the UI
caller, outside the series build. -/
theorem c7_rate_failure_propagates (hist : HistLookup)
    (sources : String → String → RateSources) (data : CompensationData)
    (startYear endYear : Int) (now : Now)
    (hcur : data.baseCurrency ≠ data.rsuCurrency)
    (hfail : sources data.rsuCurrency data.baseCurrency = ⟨none, none, none⟩) :
    calculateProjections hist sources data startYear endYear now
      = Except.error ("Unable to fetch exchange rate from "
          ++ data.rsuCurrency ++ " to " ++ data.baseCurrency) := by
  unfold calculateProjections
  rw [if_neg hcur]
  unfold getExchangeRate
  rw [if_neg (fun h => hcur h.symm), hfail]
  rfl

/-- Witness for C7 at a concrete failing configuration. -/
theorem c7_rate_failure_propagates_witness :
    calculateProjections histNone noRateSources dataTwoCurrencies 2020 2027 ⟨2025, 6⟩
      = Except.error ("Unable to fetch exchange rate from "
          ++ dataTwoCurrencies.rsuCurrency ++ " to " ++ dataTwoCurrencies.baseCurrency) :=
  c7_rate_failure_propagates histNone noRateSources dataTwoCurrencies 2020 2027
    ⟨2025, 6⟩ (by decide) rfl

/-- C4 counterexample: for the 1000-share grant dated 2022-03-15 with the
Meta calendar, current price 100 and no historical data, the 2022 RSU
vesting is 18750, not the 12500 of the claim: the May tranche is not
skipped, because May (5) is not before the grant month March (3). -/
theorem c4_example_scenario_counterexample :
    calculateRSUVestingForYear histNone [grantMarch2022] 2022 100 [2, 5, 8, 11]
      "META" ⟨2025, 10⟩ = 18750
    ∧ (18750 : Rat) ≠ 12500 := by
  constructor
  · norm_num [calculateRSUVestingForYear, realGrantsVesting, futureGrantsVesting,
      calculateQuarterlyVestsForYear, schedGet, vestPrice, histNone, grantMarch2022,
      intRange, mostRecentGrant, futureGrantFor]
  · norm_num

/-- C4 amended: for the 2022-03-15 grant with calendar [2, 5, 8, 11] and
current price 100, when the historical lookup has no data and the clock
year is at least 2022, only the February tranche is skipped; May, August
and November each vest 62.5 shares worth 6250, and the 2022 RSU vesting is
18750. -/
theorem c4_example_scenario_amended (hist : HistLookup) (now : Now)
    (h0 : ∀ y m, hist "META" y m = 0) (hcy : 2022 ≤ now.year) :
    calculateQuarterlyVestsForYear grantMarch2022 2022 [2, 5, 8, 11]
      = [⟨5, 125 / 2⟩, ⟨8, 125 / 2⟩, ⟨11, 125 / 2⟩]
    ∧ (calculateQuarterlyVestsForYear grantMarch2022 2022 [2, 5, 8, 11]).map
        (fun v => v.shares * vestPrice hist "META" 2022 v.month 100 now)
      = [6250, 6250, 6250]
    ∧ calculateRSUVestingForYear hist [grantMarch2022] 2022 100 [2, 5, 8, 11]
        "META" now = 18750 := by
  have hvp : ∀ mth : Int, vestPrice hist "META" 2022 mth 100 now = 100 := by
    intro mth
    simp only [vestPrice]
    split
    · rw [h0 2022 mth]
      norm_num
    · rfl
  have hlist : calculateQuarterlyVestsForYear grantMarch2022 2022 [2, 5, 8, 11]
      = [⟨5, 125 / 2⟩, ⟨8, 125 / 2⟩, ⟨11, 125 / 2⟩] := by
    norm_num [calculateQuarterlyVestsForYear, schedGet, grantMarch2022]
  refine ⟨hlist, ?_, ?_⟩
  · rw [hlist]
    norm_num [hvp]
  · simp only [calculateRSUVestingForYear]
    rw [if_neg (fun hc => absurd hc.2 (by omega))]
    simp only [realGrantsVesting, List.map_cons, List.map_nil, List.sum_cons,
      List.sum_nil, add_zero]
    rw [hlist]
    norm_num [hvp]

/-- Witness for C4 at the clock (2025, 10). -/
theorem c4_example_scenario_amended_witness :
    calculateQuarterlyVestsForYear grantMarch2022 2022 [2, 5, 8, 11]
      = [⟨5, 125 / 2⟩, ⟨8, 125 / 2⟩, ⟨11, 125 / 2⟩]
    ∧ (calculateQuarterlyVestsForYear grantMarch2022 2022 [2, 5, 8, 11]).map
        (fun v => v.shares * vestPrice histNone "META" 2022 v.month 100 ⟨2025, 10⟩)
      = [6250, 6250, 6250]
    ∧ calculateRSUVestingForYear histNone [grantMarch2022] 2022 100 [2, 5, 8, 11]
        "META" ⟨2025, 10⟩ = 18750 :=
  c4_example_scenario_amended histNone ⟨2025, 10⟩ (fun _ _ => rfl) (by norm_num)

/-- C3 counterexample: for a single grant dated on the leap day
2024-02-29 and target year 2027 = currentYear + 2 with clock (2025, 1),
the code yields 68750 while the claim formula (synthetic grants keeping
the original month and day) yields 75000: the JS Date constructor turns
Feb 29, 2027 into Mar 1, 2027, so the synthetic 2027 grant skips its
February tranche. -/
theorem c3_future_extrapolation_counterexample :
    calculateRSUVestingForYear histNone [grantFeb29] 2027 100 [2, 5, 8, 11]
      "META" ⟨2025, 1⟩
    ≠ claimC3RsuVest grantFeb29 2027 100 [2, 5, 8, 11] ⟨2025, 1⟩ := by
  have hd26 : futureGrantFor grantFeb29 2026 = ⟨⟨2026, 3, 1⟩, 1000, ⟨[25, 25, 25, 25]⟩⟩ := by
    norm_num [futureGrantFor, grantFeb29, jsMkDate, Int.fdiv, Int.emod]
    rw [normDayCarry, dif_pos (by norm_num [daysInMonth, isLeapYear]),
      if_neg (by norm_num)]
    rw [normDayCarry, dif_neg (by norm_num [daysInMonth, isLeapYear])]
    norm_num [daysInMonth, isLeapYear]
  have hd27 : futureGrantFor grantFeb29 2027 = ⟨⟨2027, 3, 1⟩, 1000, ⟨[25, 25, 25, 25]⟩⟩ := by
    norm_num [futureGrantFor, grantFeb29, jsMkDate, Int.fdiv, Int.emod]
    rw [normDayCarry, dif_pos (by norm_num [daysInMonth, isLeapYear]),
      if_neg (by norm_num)]
    rw [normDayCarry, dif_neg (by norm_num [daysInMonth, isLeapYear])]
    norm_num [daysInMonth, isLeapYear]
  have hrange : intRange (2025 + 1) 2027 = [2026, 2027] := by
    rw [show (2027 : Int) = 2025 + 2 from by norm_num, intRange_succ_two]
    norm_num
  have h1 : calculateRSUVestingForYear histNone [grantFeb29] 2027 100 [2, 5, 8, 11]
      "META" ⟨2025, 1⟩ = 68750 := by
    simp only [calculateRSUVestingForYear, realGrantsVesting, futureGrantsVesting,
      mostRecentGrant, List.foldl_nil, hrange, hd26, hd27, List.map_cons,
      List.map_nil, List.sum_cons, List.sum_nil]
    rw [if_pos (by norm_num)]
    norm_num [calculateQuarterlyVestsForYear, schedGet, vestPrice, histNone,
      grantFeb29, show Int.toNat 3 = 3 from rfl]
  have h2 : claimC3RsuVest grantFeb29 2027 100 [2, 5, 8, 11] ⟨2025, 1⟩ = 75000 := by
    simp only [claimC3RsuVest, claimFutureGrantFor, grantFeb29]
    norm_num [calculateQuarterlyVestsForYear, schedGet,
      show Int.toNat 3 = 3 from rfl]
  rw [h1, h2]
  norm_num

/-- C3 amended: for a single grant and target year currentYear + 2, the
projected rsuVest is the sum of the original grant tranches (valued at the
current stock price, the year being in the future) plus the tranches of
synthetic grants dated currentYear + 1 and currentYear + 2 with the
original month, day, shares and vesting pattern, each synthetic tranche at
the current stock price - provided the original month/day pair exists in
both synthetic years (a Feb 29 grant date in a non-leap synthetic year is
instead moved to Mar 1 by the JS Date constructor). -/
theorem c3_future_extrapolation_amended (hist : HistLookup) (sym : String)
    (grant : RSUGrant) (cal : List Int) (price : Rat) (now : Now) (year : Int)
    (hyear : year = now.year + 2)
    (hm1 : 1 ≤ grant.grantDate.month) (hm2 : grant.grantDate.month ≤ 12)
    (hd1 : grant.grantDate.day ≤ daysInMonth (now.year + 1) grant.grantDate.month)
    (hd2 : grant.grantDate.day ≤ daysInMonth (now.year + 2) grant.grantDate.month) :
    calculateRSUVestingForYear hist [grant] year price cal sym now
      = claimC3RsuVest grant year price cal now := by
  subst hyear
  simp only [calculateRSUVestingForYear]
  rw [if_pos ⟨by norm_num, by omega⟩]
  simp only [mostRecentGrant, List.foldl_nil]
  have hreal : realGrantsVesting hist sym [grant] (now.year + 2) price cal now
      = ((calculateQuarterlyVestsForYear grant (now.year + 2) cal).map
          (fun v => v.shares * price)).sum := by
    simp only [realGrantsVesting, List.map_cons, List.map_nil, List.sum_cons,
      List.sum_nil, add_zero]
    congr 1
    apply List.map_congr_left
    intro v _
    congr 1
    simp only [vestPrice]
    rw [if_neg (by omega)]
  have hfg : ∀ g : Int, grant.grantDate.day ≤ daysInMonth g grant.grantDate.month →
      futureGrantFor grant g = claimFutureGrantFor grant g := by
    intro g hd
    simp only [futureGrantFor, claimFutureGrantFor]
    congr 1
    exact jsMkDate_of_valid g grant.grantDate.month grant.grantDate.day hm1 hm2 hd
  rw [hreal]
  simp only [futureGrantsVesting, intRange_succ_two, List.map_cons, List.map_nil,
    List.sum_cons, List.sum_nil, add_zero]
  rw [hfg _ hd1, hfg _ hd2]
  simp only [claimC3RsuVest]
  ring

/-- Witness for C3 at the 2022-03-15 grant with clock (2025, 7) and
target year 2027. -/
theorem c3_future_extrapolation_amended_witness :
    calculateRSUVestingForYear histNone [grantMarch2022] 2027 100 [2, 5, 8, 11]
      "META" ⟨2025, 7⟩
      = claimC3RsuVest grantMarch2022 2027 100 [2, 5, 8, 11] ⟨2025, 7⟩ :=
  c3_future_extrapolation_amended histNone "META" grantMarch2022 [2, 5, 8, 11]
    100 ⟨2025, 7⟩ 2027 (by norm_num)
    (by norm_num [grantMarch2022])
    (by norm_num [grantMarch2022])
    (by norm_num [grantMarch2022, daysInMonth])
    (by norm_num [grantMarch2022, daysInMonth])

/-- C8 counterexample: for the 2022-03-15 grant with the equal pattern and
4-entry calendar [2, 5, 8, 11], at the as-of point (2026, 3), exactly 4
years after the grant date, remainingValue is 0 but the cumulative
vestedShares is 937.5, not the full 1000 shares: the February 2022 tranche
skipped in the grant year is never made up. -/
theorem c8_four_year_counterexample :
    calculateRemainingValue grantMarch2022 100 2026 (some [2, 5, 8, 11]) ⟨2026, 3⟩ = 0
    ∧ (calculateVestedValue histNone grantMarch2022 [2, 5, 8, 11] "META" 100
        (some 2026) none ⟨2026, 3⟩).2 = 1875 / 2
    ∧ (1875 / 2 : Rat) ≠ 1000 := by
  refine ⟨rfl, ?_, by norm_num⟩
  rw [calculateVestedValue_snd histNone grantMarch2022 [2, 5, 8, 11] "META" 100
    2026 ⟨2026, 3⟩ (by norm_num)]
  norm_num [grantMarch2022, weightedQuarterPct, tranchesCounted]

/-- C8 amended: for a grant with the equal [25, 25, 25, 25] pattern and a
4-entry vesting calendar none of whose months precedes the grant month, at
an as-of date exactly 4 years after the grant date the remaining value is
0 and the cumulative vestedShares equals totalShares. Without the
no-earlier-months proviso the grant-year tranches before the grant month
are dropped and the vested shares stay short of totalShares. -/
theorem c8_four_year_amended (hist : HistLookup) (grant : RSUGrant)
    (cal : List Int) (sym : String) (price : Rat) (now : Now)
    (hsched : grant.vestingPattern.schedule = [25, 25, 25, 25])
    (hlen : cal.length = 4)
    (hmonths : ∀ m ∈ cal, grant.grantDate.month ≤ m)
    (hY : grant.grantDate.year + 4 ≠ 0) :
    calculateRemainingValue grant price (grant.grantDate.year + 4) (some cal) now = 0
    ∧ (calculateVestedValue hist grant cal sym price
        (some (grant.grantDate.year + 4)) none now).2 = grant.totalShares := by
  constructor
  · simp only [calculateRemainingValue]
    rw [if_neg (by omega), if_pos (by rw [hsched]; norm_num)]
  · rw [calculateVestedValue_snd hist grant cal sym price _ now hY, hsched]
    have hT : ∀ k : Int, 0 ≤ k → k ≤ 3 →
        tranchesCounted cal grant.grantDate.year grant.grantDate.month
          (grant.grantDate.year + 4) now.month (grant.grantDate.year + k)
        = cal.length := by
      intro k hk0 hk3
      unfold tranchesCounted
      rw [List.filter_eq_self.mpr ?_]
      intro m hm
      simp only [decide_eq_true_eq]
      have := hmonths m hm
      omega
    have e0 := hT 0 (by norm_num) (by norm_num)
    have e1 := hT 1 (by norm_num) (by norm_num)
    have e2 := hT 2 (by norm_num) (by norm_num)
    have e3 := hT 3 (by norm_num) (by norm_num)
    rw [show grant.grantDate.year + 0 = grant.grantDate.year from by ring] at e0
    rw [show grant.grantDate.year + 2 = grant.grantDate.year + 1 + 1 from by ring] at e2
    rw [show grant.grantDate.year + 3 = grant.grantDate.year + 1 + 1 + 1 from by ring] at e3
    rw [weightedQuarterPct, e0, weightedQuarterPct, e1, weightedQuarterPct, e2,
      weightedQuarterPct, e3, weightedQuarterPct, hlen]
    push_cast
    ring

/-- Witness for C8 at a January grant, whose grant month precedes every
calendar month. -/
theorem c8_four_year_amended_witness :
    calculateRemainingValue grantJan2022 100 (2022 + 4) (some [2, 5, 8, 11])
      ⟨2026, 3⟩ = 0
    ∧ (calculateVestedValue histNone grantJan2022 [2, 5, 8, 11] "META" 100
        (some (2022 + 4)) none ⟨2026, 3⟩).2 = 1000 :=
  c8_four_year_amended histNone grantJan2022 [2, 5, 8, 11] "META" 100 ⟨2026, 3⟩
    rfl rfl (by norm_num [grantJan2022]) (by norm_num [grantJan2022])

/-- C9 counterexample: at the as-of point (2026, 3), 4 years after the
2022-03-15 grant, vestedShares is 937.5 and remainingValue is 0, so
vestedShares + remainingValue / price is 937.5, not the 1000 total shares:
the conservation law fails once the grant is past its schedule, because
the skipped grant-year tranches are counted by neither side. -/
theorem c9_conservation_counterexample :
    (calculateVestedValue histNone grantMarch2022 [2, 5, 8, 11] "META" 100
        (some 2026) none ⟨2026, 3⟩).2
      + calculateRemainingValue grantMarch2022 100 2026 (some [2, 5, 8, 11])
          ⟨2026, 3⟩ / 100
    ≠ grantMarch2022.totalShares := by
  have hv : (calculateVestedValue histNone grantMarch2022 [2, 5, 8, 11] "META" 100
      (some 2026) none ⟨2026, 3⟩).2 = 1875 / 2 := by
    rw [calculateVestedValue_snd histNone grantMarch2022 [2, 5, 8, 11] "META" 100
      2026 ⟨2026, 3⟩ (by norm_num)]
    norm_num [grantMarch2022, weightedQuarterPct, tranchesCounted]
  have hr : calculateRemainingValue grantMarch2022 100 2026 (some [2, 5, 8, 11])
      ⟨2026, 3⟩ = 0 := rfl
  rw [hv, hr]
  norm_num [grantMarch2022]

/-- C9 amended: the conservation law vestedShares + remainingValue / price
= totalShares holds at any as-of year strictly before the end of the
vesting schedule, for a sorted vesting calendar of at most 4 months, a
nonnegative schedule summing to at most 100, a positive price, and the
as-of month being the clock month (remainingValue reads the month from the
clock while taking the year as a parameter). Past the end of the schedule
the law fails, as the counterexample shows. -/
theorem c9_conservation_amended (hist : HistLookup) (grant : RSUGrant)
    (cal : List Int) (sym : String) (price : Rat) (now : Now) (Y : Int)
    (hsort : cal.Pairwise (· ≤ ·))
    (hnn : ∀ a ∈ grant.vestingPattern.schedule, 0 ≤ a)
    (hsum : grant.vestingPattern.schedule.sum ≤ 100)
    (hcal : cal.length ≤ 4)
    (hY0 : Y ≠ 0)
    (hwin : Y < grant.grantDate.year + grant.vestingPattern.schedule.length)
    (hp : 0 < price) :
    (calculateVestedValue hist grant cal sym price (some Y) none now).2
      + calculateRemainingValue grant price Y (some cal) now / price
    = grant.totalShares := by
  rw [calculateVestedValue_snd hist grant cal sym price Y now hY0]
  by_cases hneg : Y - grant.grantDate.year < 0
  · have hz : weightedQuarterPct cal grant.grantDate.year grant.grantDate.month Y
        now.month grant.vestingPattern.schedule grant.grantDate.year = 0 :=
      weightedQuarterPct_eq_zero _ _ _ _ _ _ _ (by omega)
    simp only [calculateRemainingValue, if_pos hneg, calculateTotalGrantValue]
    rw [hz]
    field_simp
  · have hlt : ¬ ((grant.vestingPattern.schedule.length : Int)
        ≤ Y - grant.grantDate.year) := by omega
    simp only [calculateRemainingValue]
    rw [if_neg hneg, if_neg hlt]
    simp only [Option.getD_some]
    rw [remPctLoop_eq cal _ _ _ _ hsort, zero_add]
    have hPle : weightedQuarterPct cal grant.grantDate.year grant.grantDate.month Y
        now.month grant.vestingPattern.schedule grant.grantDate.year ≤ 100 :=
      le_trans
        (weightedQuarterPct_le_sum cal _ _ _ _ hcal _ hnn _) hsum
    rw [max_eq_right (by linarith)]
    field_simp
    ring

/-- Witness for C9 inside the vesting window: as-of year 2024 for the
2022-03-15 grant. -/
theorem c9_conservation_amended_witness :
    (calculateVestedValue histNone grantMarch2022 [2, 5, 8, 11] "META" 100
        (some 2024) none ⟨2025, 10⟩).2
      + calculateRemainingValue grantMarch2022 100 2024 (some [2, 5, 8, 11])
          ⟨2025, 10⟩ / 100
    = grantMarch2022.totalShares :=
  c9_conservation_amended histNone grantMarch2022 [2, 5, 8, 11] "META" 100
    ⟨2025, 10⟩ 2024
    (by decide)
    (by norm_num [grantMarch2022])
    (by norm_num [grantMarch2022])
    (by norm_num)
    (by norm_num)
    (by norm_num [grantMarch2022])
    (by norm_num)

end CompCalc
